import Mathlib

deriving instance DecidableEq for Except

/-!
Shallow embedding of the authentication core of the blogverse application
(src/src/auth/{handler,jwt,utils,mod}.rs together with src/src/error.rs and
src/src/response.rs).

Modelling conventions:
* Postgres rows become Lean structures; the database is a pair of lists
  (`users`, `tokens`) and each SQL statement becomes a pure list operation.
* Timestamps are `Int` seconds (chrono's `timestamp()` view); `NOW()` is an
  explicit `now` parameter. `Duration::hours(24)` is `86400` seconds and
  `Duration::hours(1)` is `3600` seconds.
* `Uuid::new_v4()` and `generate_secure_token()` draw randomness; the drawn
  values are explicit parameters of each handler (an environment record).
* Statement-level storage failures are explicit `Bool` oracles in the same
  environment records (`true` = the statement succeeds).  A multi-statement
  `pool.begin() ... tx.commit()` transaction is atomic in Postgres, so it is
  embedded as a single state change guarded by one commit oracle: on any
  failure inside the transaction the state is unchanged.  Statements executed
  directly on the pool (no transaction) each take effect individually.
* The argon2 password-hashing crate is external to the repository.  It is
  modelled symbolically: the derived key of the memory-hard function is the
  plaintext itself, the digest string is `parameter-prelude ++ salt ++ '$' ++
  derived`, and verification re-derives with the embedded salt and compares,
  which preserves the crate's contract (verify(hash p, p) holds, verify with
  a different plaintext fails, the digest is never the plaintext).
* The jsonwebtoken crate is likewise external and is modelled symbolically
  (Dolev-Yao style): the HMAC signature over claims is the ideal injective
  function, represented by the pair (secret, claims) itself; validation
  checks the signature and the `exp` claim with the crate's default 60
  second leeway.
* The `validator` crate's field-syntax checks (email shape, length bounds)
  precede every handler and are out of scope per the specification; handlers
  are embedded at the point after payload validation has passed.
-/

namespace Blogverse

/-- Row of the `users` table (struct `User` in src/src/auth/mod.rs). -/
structure User where
  id : Nat
  username : String
  email : String
  bio : Option String
  image : Option String
  password_hash : String
  email_verified : Bool
  created_at : Int
  updated_at : Int
deriving DecidableEq

/-- Row of the `auth_tokens` table (struct `AuthToken` in src/src/auth/mod.rs). -/
structure AuthToken where
  id : Nat
  user_id : Nat
  token : String
  token_type : String
  expires_at : Int
  used_at : Option Int
  created_at : Int
deriving DecidableEq

/-- The durable state: the two tables the auth core touches. -/
structure Db where
  users : List User
  tokens : List AuthToken
deriving DecidableEq

/-- The empty database. -/
def Db.empty : Db := ⟨[], []⟩

/-- Error taxonomy (enum `AppError` in src/src/error.rs). -/
inductive AppError where
  | InternalServerError
  | BadRequest (msg : String)
  | Unauthorized
  | NotFound (msg : String)
  | Conflict (msg : String)
  | UnprocessableEntity (msg : String)
deriving DecidableEq

/-- Public projection of a user (struct `UserResponse` in src/src/auth/mod.rs):
it has no password-hash field at all. -/
structure UserResponse where
  id : Nat
  username : String
  email : String
  bio : Option String
  image : Option String
  email_verified : Bool
deriving DecidableEq

/-- `impl From<User> for UserResponse` in src/src/auth/mod.rs. -/
def UserResponse.fromUser (u : User) : UserResponse :=
  ⟨u.id, u.username, u.email, u.bio, u.image, u.email_verified⟩

/-! ### Password hashing (src/src/auth/utils.rs, argon2 modelled symbolically) -/

/-- Parameter prelude of an argon2 PHC digest string, up to and including the
separator before the salt. -/
def argonPre : List Char := "$argon2id$v=19$m=19456,t=2,p=1$".data

/-- Symbolic rendering of a random salt as characters; contains no separator. -/
def saltChars (salt : Nat) : List Char := List.replicate salt 'A'

/-- Drops characters up to and including the first separator, the way digest
parsing skips the embedded salt to reach the derived-key section. -/
def dropSalt : List Char → Option (List Char)
  | [] => none
  | c :: rest => if c = '$' then some rest else dropSalt rest

/-- Exact-match removal of an expected leading segment. -/
def stripFront : List Char → List Char → Option (List Char)
  | [], rest => some rest
  | _ :: _, [] => none
  | p :: ps, c :: cs => if c = p then stripFront ps cs else none

/-- `hash_password` of src/src/auth/utils.rs: fresh random salt, memory-hard
derivation, self-describing digest `parameters ++ salt ++ '$' ++ derived`.
The external one-way function is modelled symbolically (see the header). -/
def hash_password (salt : Nat) (password : String) : String :=
  ⟨argonPre ++ saltChars salt ++ '$' :: password.data⟩

/-- `verify_password` of src/src/auth/utils.rs: parse the digest, re-derive
with the embedded parameters and salt, compare.  Parse failure and mismatch
are the same `false` outcome (the Rust code collapses both into `Err`). -/
def verify_password (digest password : String) : Bool :=
  match stripFront argonPre digest.data with
  | none => false
  | some rest =>
    match dropSalt rest with
    | none => false
    | some derived => decide (derived = password.data)

/-! ### Bearer tokens (src/src/auth/jwt.rs, jsonwebtoken modelled symbolically) -/

/-- struct `Claims` in src/src/auth/jwt.rs. -/
structure Claims where
  sub : Nat
  exp : Int
  iat : Int
deriving DecidableEq

/-- A signed token string: the claims plus the symbolic HMAC over them,
which is the ideal injective function of (secret, claims). -/
structure SignedToken where
  claims : Claims
  sig : String × Claims
deriving DecidableEq

/-- `create_token` of src/src/auth/jwt.rs: claims with `iat = now` and
`exp = now + 1 hour`, signed with the server secret. -/
def create_token (now : Int) (user_id : Nat) (secret : String) : SignedToken :=
  ⟨⟨user_id, now + 3600, now⟩, (secret, ⟨user_id, now + 3600, now⟩)⟩

/-- Signature-and-expiry check performed by `decode::<Claims>` with
`Validation::default()` (60 seconds of leeway on `exp`).  Every failure is the
single 401 outcome. -/
def validate_token (now : Int) (secret : String) (t : SignedToken) : Except Unit Claims :=
  if t.sig = (secret, t.claims) ∧ now - 60 ≤ t.claims.exp then .ok t.claims
  else .error ()

/-- `Claims::from_request_parts` of src/src/auth/jwt.rs: a missing or
malformed Authorization header is `none` and is the same 401 outcome as a
failed decode. -/
def from_request_parts (bearer : Option SignedToken) (now : Int) (secret : String) :
    Except Unit Claims :=
  match bearer with
  | none => .error ()
  | some t => validate_token now secret t

/-! ### SQL statements as list operations -/

/-- `SELECT * FROM users WHERE email = $1` with `fetch_optional`. -/
def findUserByEmail (db : Db) (email : String) : Option User :=
  db.users.find? (fun u => u.email == email)

/-- `SELECT * FROM users WHERE id = $1` with `fetch_optional`. -/
def findUserById (db : Db) (id : Nat) : Option User :=
  db.users.find? (fun u => u.id == id)

/-- `SELECT * FROM auth_tokens WHERE token = $1 AND token_type = $ty AND
expires_at > NOW() AND used_at IS NULL` with `fetch_optional`: the live-token
lookup shared by verify-email and reset-password. -/
def find_live (tokens : List AuthToken) (s ty : String) (now : Int) : Option AuthToken :=
  tokens.find? (fun t =>
    t.token == s && t.token_type == ty && decide (now < t.expires_at) && t.used_at.isNone)

/-- `UPDATE auth_tokens SET used_at = NOW() WHERE user_id = $1 AND
token_type = $ty AND used_at IS NULL`: invalidate every not-yet-used token of
one (user, type) pair. -/
def invalidateLive (tokens : List AuthToken) (uid : Nat) (ty : String) (now : Int) :
    List AuthToken :=
  tokens.map (fun t =>
    if t.user_id = uid ∧ t.token_type = ty ∧ t.used_at = none
    then { t with used_at := some now } else t)

/-- `UPDATE auth_tokens SET used_at = NOW() WHERE id = $1`: consume one token. -/
def markUsed (tokens : List AuthToken) (tid : Nat) (now : Int) : List AuthToken :=
  tokens.map (fun t => if t.id = tid then { t with used_at := some now } else t)

/-- `UPDATE users SET email_verified = true, updated_at = NOW() WHERE id = $1`. -/
def setVerified (users : List User) (uid : Nat) (now : Int) : List User :=
  users.map (fun u =>
    if u.id = uid then { u with email_verified := true, updated_at := now } else u)

/-- `UPDATE users SET password_hash = $1, updated_at = NOW() WHERE id = $2`. -/
def setPassword (users : List User) (uid : Nat) (h : String) (now : Int) : List User :=
  users.map (fun u =>
    if u.id = uid then { u with password_hash := h, updated_at := now } else u)

/-! ### Handlers (src/src/auth/handler.rs) -/

/-- Payload of POST /api/auth/sign-up (struct `RegisterUser`). -/
structure RegisterUser where
  username : String
  email : String
  password : String
deriving DecidableEq

/-- Randomness and per-statement storage oracles drawn during `signup`:
the fresh v4 uuid, the argon2 salt, the generated secure token string and its
row id, the clock, and whether each of the two pool-level inserts succeeds
(beyond a duplicate key on the user insert, which is distinguished). -/
structure SignupEnv where
  uuid : Nat
  salt : Nat
  tokId : Nat
  tokStr : String
  now : Int
  userInsertOk : Bool
  tokenInsertOk : Bool
deriving DecidableEq

/-- Success payload of `signup`: the 201 message and the public projection. -/
def signupMsg : String := "Account created. Please check your email to verify your account."

/-- `signup` of src/src/auth/handler.rs: hash the password, INSERT the user
with `email_verified = false` (duplicate key on id/username/email is a 409
Conflict), then — as a second, untransacted statement — INSERT a 24-hour
`email_verification` token.  Email delivery is best-effort and changes
nothing.  Returns the new state and the result. -/
def signup (db : Db) (req : RegisterUser) (env : SignupEnv) :
    Db × Except AppError (String × UserResponse) :=
  let password_hash := hash_password env.salt req.password
  if db.users.any (fun u => u.id == env.uuid || u.username == req.username || u.email == req.email)
  then (db, .error (.Conflict "Username or Email already exists"))
  else if !env.userInsertOk then (db, .error .InternalServerError)
  else
    let user : User :=
      ⟨env.uuid, req.username, req.email, none, none, password_hash, false, env.now, env.now⟩
    let db1 : Db := { db with users := db.users ++ [user] }
    if !env.tokenInsertOk then (db1, .error .InternalServerError)
    else
      let tok : AuthToken :=
        ⟨env.tokId, user.id, env.tokStr, "email_verification", env.now + 86400, none, env.now⟩
      ({ db1 with tokens := db1.tokens ++ [tok] },
       .ok (signupMsg, UserResponse.fromUser user))

/-- Clock and commit oracle for the two-statement transactions of
verify-email and reset-password: the transaction takes effect atomically iff
`commitOk` (any statement error or commit error rolls it back). -/
structure TxEnv where
  now : Int
  commitOk : Bool
deriving DecidableEq

/-- `verify_email` of src/src/auth/handler.rs: look up the live token (absent,
used and expired are the same 400 "Invalid or expired token"), then in one
transaction mark it used and set the owner's `email_verified`; the user UPDATE
uses `fetch_one`, so a missing owner also aborts the transaction. -/
def verify_email (db : Db) (tokenStr : String) (env : TxEnv) :
    Db × Except AppError String :=
  match find_live db.tokens tokenStr "email_verification" env.now with
  | none => (db, .error (.BadRequest "Invalid or expired token"))
  | some auth_token =>
    if (findUserById db auth_token.user_id).isSome ∧ env.commitOk then
      ({ users := setVerified db.users auth_token.user_id env.now,
         tokens := markUsed db.tokens auth_token.id env.now },
       .ok "Email verified successfully")
    else (db, .error .InternalServerError)

/-- Generic resend-verification success message (the enumeration-resistant
reply of the absent-account path and of the reissue path). -/
def resendGenericMsg : String := "If an account exists, a verification email has been sent."

/-- Randomness and statement oracles for resend-verification and
forgot-password: new token string and row id, clock, and whether each of the
two pool-level statements (invalidate UPDATE, then INSERT) succeeds.  The two
statements are not inside a transaction, so the UPDATE persists even when the
INSERT then fails. -/
structure ReissueEnv where
  tokId : Nat
  tokStr : String
  now : Int
  invalidateOk : Bool
  insertOk : Bool
deriving DecidableEq

/-- `resend_verification` of src/src/auth/handler.rs: absent account replies
with the generic message; an already-verified account replies with a distinct
"Email is already verified."; otherwise invalidate every unused
`email_verification` token of the user and insert a fresh 24-hour one, then
reply with the generic message. -/
def resend_verification (db : Db) (email : String) (env : ReissueEnv) :
    Db × Except AppError String :=
  match findUserByEmail db email with
  | none => (db, .ok resendGenericMsg)
  | some user =>
    if user.email_verified then (db, .ok "Email is already verified.")
    else if !env.invalidateOk then (db, .error .InternalServerError)
    else
      let db1 : Db :=
        { db with tokens := invalidateLive db.tokens user.id "email_verification" env.now }
      if !env.insertOk then (db1, .error .InternalServerError)
      else
        let tok : AuthToken :=
          ⟨env.tokId, user.id, env.tokStr, "email_verification", env.now + 86400, none, env.now⟩
        ({ db1 with tokens := db1.tokens ++ [tok] }, .ok resendGenericMsg)

/-- Payload of POST /api/auth/sign-in (struct `LoginUser`). -/
structure LoginUser where
  email : String
  password : String
deriving DecidableEq

/-- The distinct verify-your-email login error (422, not 401). -/
def verifyEmailMsg : String := "Please verify your email before logging in"

/-- `login` of src/src/auth/handler.rs: absent email and wrong password are
the same bare 401 Unauthorized; a correct password on an unverified account is
the distinct 422; success returns the signed bearer token and the public
projection. -/
def login (db : Db) (req : LoginUser) (now : Int) (secret : String) :
    Except AppError (SignedToken × UserResponse) :=
  match findUserByEmail db req.email with
  | none => .error .Unauthorized
  | some user =>
    if verify_password user.password_hash req.password then
      if user.email_verified then
        .ok (create_token now user.id secret, UserResponse.fromUser user)
      else .error (.UnprocessableEntity verifyEmailMsg)
    else .error .Unauthorized

/-- Generic forgot-password success message, returned on every non-error path. -/
def forgotGenericMsg : String := "If an account exists, a password reset email has been sent."

/-- `forgot_password` of src/src/auth/handler.rs: absent account replies with
the generic message; otherwise invalidate every unused `password_reset` token
of the user, insert a fresh 1-hour one, and reply with the same generic
message. -/
def forgot_password (db : Db) (email : String) (env : ReissueEnv) :
    Db × Except AppError String :=
  match findUserByEmail db email with
  | none => (db, .ok forgotGenericMsg)
  | some user =>
    if !env.invalidateOk then (db, .error .InternalServerError)
    else
      let db1 : Db :=
        { db with tokens := invalidateLive db.tokens user.id "password_reset" env.now }
      if !env.insertOk then (db1, .error .InternalServerError)
      else
        let tok : AuthToken :=
          ⟨env.tokId, user.id, env.tokStr, "password_reset", env.now + 3600, none, env.now⟩
        ({ db1 with tokens := db1.tokens ++ [tok] }, .ok forgotGenericMsg)

/-- `reset_password` of src/src/auth/handler.rs: look up the live reset token
(same collapsed 400 as verify-email), hash the new password with a fresh salt,
then in one transaction mark the token used and overwrite the owner's
password hash and updated timestamp (a plain `execute`, so no owner-existence
requirement). -/
def reset_password (db : Db) (tokenStr newPassword : String) (salt : Nat) (env : TxEnv) :
    Db × Except AppError String :=
  match find_live db.tokens tokenStr "password_reset" env.now with
  | none => (db, .error (.BadRequest "Invalid or expired token"))
  | some auth_token =>
    let password_hash := hash_password salt newPassword
    if env.commitOk then
      ({ users := setPassword db.users auth_token.user_id password_hash env.now,
         tokens := markUsed db.tokens auth_token.id env.now },
       .ok "Password reset successfully")
    else (db, .error .InternalServerError)

/-- `get_me` of src/src/auth/handler.rs: load the subject of the validated
claims and return the public projection. -/
def get_me (db : Db) (claims : Claims) : Except AppError UserResponse :=
  match findUserById db claims.sub with
  | none => .error (.NotFound "User not found")
  | some user => .ok (UserResponse.fromUser user)

/-- `get_user_by_id` of src/src/auth/handler.rs. -/
def get_user_by_id (db : Db) (id : Nat) : Except AppError UserResponse :=
  match findUserById db id with
  | none => .error (.NotFound "User not found")
  | some user => .ok (UserResponse.fromUser user)

/-! ### Concrete fixtures used by witnesses -/

/-- Digest of alice's password as stored at signup. -/
def aliceHash : String := hash_password 2 "password123"

/-- A verified user. -/
def alice : User := ⟨1, "alice", "a@x.com", none, none, aliceHash, true, 0, 0⟩

/-- An unverified user. -/
def bob : User := ⟨2, "bob", "b@y.com", none, none, hash_password 3 "hunter2aa", false, 0, 0⟩

/-- A two-user database with no tokens. -/
def dbAB : Db := ⟨[alice, bob], []⟩

/-! ### Password hashing lemmas -/

theorem stripFront_app (xs rest : List Char) : stripFront xs (xs ++ rest) = some rest := by
  induction xs with
  | nil => rfl
  | cons c cs ih => simp [stripFront, ih]

theorem dropSalt_app (s r : List Char) (h : ∀ c ∈ s, c ≠ '$') :
    dropSalt (s ++ '$' :: r) = some r := by
  induction s with
  | nil => simp [dropSalt]
  | cons c cs ih =>
    have hc : c ≠ '$' := h c (by simp)
    simpa [dropSalt, hc] using ih (fun x hx => h x (by simp [hx]))

theorem verify_password_hash (salt : Nat) (p q : String) :
    verify_password (hash_password salt p) q = decide (p = q) := by
  have hdata : (hash_password salt p).data = argonPre ++ (saltChars salt ++ '$' :: p.data) := by
    simp [hash_password]
  have hsalt : ∀ c ∈ saltChars salt, c ≠ '$' := by
    intro c hc
    have : c = 'A' := List.eq_of_mem_replicate hc
    simp [this]
  have hiff : p.data = q.data ↔ p = q := ⟨String.ext, fun h => by rw [h]⟩
  simp [verify_password, hdata, stripFront_app, dropSalt_app _ _ hsalt, hiff]

theorem hash_password_ne (salt : Nat) (p : String) : hash_password salt p ≠ p := by
  intro h
  have hlen := congrArg (fun s => s.data.length) h
  simp [hash_password, saltChars] at hlen
  omega

/-- Claim C8: verifying the digest of p against p succeeds, against any
distinct plaintext fails, and the digest never equals the plaintext. -/
theorem C8_hash_verify (salt : Nat) (p q : String) :
    verify_password (hash_password salt p) p = true
    ∧ (q ≠ p → verify_password (hash_password salt p) q = false)
    ∧ hash_password salt p ≠ p := by
  refine ⟨?_, ?_, hash_password_ne salt p⟩
  · simp [verify_password_hash]
  · intro hq
    simp [verify_password_hash]
    exact fun h => (hq h.symm).elim

/-- Witness for C8 at a concrete password and a concrete distinct guess. -/
theorem C8_witness :
    verify_password (hash_password 3 "password123") "password123" = true
    ∧ verify_password (hash_password 3 "password123") "password124" = false
    ∧ hash_password 3 "password123" ≠ "password123" := by
  have h := C8_hash_verify 3 "password123" "password124"
  exact ⟨h.1, h.2.1 (by decide), h.2.2⟩

/-! ### Bearer-token lemmas -/

/-- Claim C7: validating a freshly created token with the same secret yields
claims with the right subject and an expiry exactly one hour after issuance;
a different secret, a tampered token, or a missing header all fail with the
single unauthorized outcome. -/
theorem C7_bearer_tokens (now : Int) (uid : Nat) (secret : String) :
    validate_token now secret (create_token now uid secret) = .ok ⟨uid, now + 3600, now⟩
    ∧ (∀ c, validate_token now secret (create_token now uid secret) = .ok c →
        c.sub = uid ∧ c.exp = c.iat + 3600)
    ∧ (∀ s2, s2 ≠ secret → validate_token now s2 (create_token now uid secret) = .error ())
    ∧ (∀ t : SignedToken, t.sig ≠ (secret, t.claims) →
        validate_token now secret t = .error ())
    ∧ from_request_parts none now secret = .error () := by
  have hok : validate_token now secret (create_token now uid secret)
      = .ok ⟨uid, now + 3600, now⟩ := by
    unfold validate_token create_token
    rw [if_pos]
    refine ⟨rfl, ?_⟩
    show now - 60 ≤ now + 3600
    omega
  refine ⟨hok, ?_, ?_, ?_, rfl⟩
  · intro c hc
    rw [hok] at hc
    cases hc
    exact ⟨rfl, rfl⟩
  · intro s2 hs2
    unfold validate_token create_token
    rw [if_neg]
    intro hand
    have hpair : (secret, (⟨uid, now + 3600, now⟩ : Claims))
        = (s2, (⟨uid, now + 3600, now⟩ : Claims)) := hand.1
    exact hs2 (congrArg Prod.fst hpair).symm
  · intro t ht
    unfold validate_token
    rw [if_neg]
    intro hand
    exact ht hand.1

/-- Witness for C7 at a concrete user id, secret, tampered token and clock. -/
theorem C7_witness :
    validate_token 0 "k" (create_token 0 9 "k") = .ok ⟨9, 3600, 0⟩
    ∧ validate_token 0 "k2" (create_token 0 9 "k") = .error ()
    ∧ validate_token 0 "k" ⟨⟨8, 3600, 0⟩, ("k", ⟨9, 3600, 0⟩)⟩ = .error () := by
  have h := C7_bearer_tokens 0 9 "k"
  exact ⟨h.1, h.2.2.1 "k2" (by decide),
    h.2.2.2.1 ⟨⟨8, 3600, 0⟩, ("k", ⟨9, 3600, 0⟩)⟩ (by decide)⟩

/-! ### Login outcome lemmas -/

/-- Claim C4: a nonexistent email and a wrong password for an existing user
produce the identical bare unauthorized outcome, while a correct password on
an unverified account produces the distinct verify-your-email error. -/
theorem C4_login_outcomes (db : Db) (req : LoginUser) (now : Int) (secret : String) :
    (findUserByEmail db req.email = none → login db req now secret = .error .Unauthorized)
    ∧ (∀ u, findUserByEmail db req.email = some u →
        verify_password u.password_hash req.password = false →
        login db req now secret = .error .Unauthorized)
    ∧ (∀ u, findUserByEmail db req.email = some u →
        verify_password u.password_hash req.password = true →
        u.email_verified = false →
        login db req now secret = .error (.UnprocessableEntity verifyEmailMsg))
    ∧ (∀ m, AppError.Unauthorized ≠ AppError.UnprocessableEntity m) := by
  refine ⟨?_, ?_, ?_, fun m h => by cases h⟩
  · intro h
    simp [login, h]
  · intro u hu hv
    simp [login, hu, hv]
  · intro u hu hv hnv
    simp [login, hu, hv, hnv]

/-- Witness for C4: all three login outcomes at concrete inputs. -/
theorem C4_witness :
    login dbAB ⟨"nobody@x.com", "password123"⟩ 0 "k" = .error .Unauthorized
    ∧ login dbAB ⟨"a@x.com", "wrongpass99"⟩ 0 "k" = .error .Unauthorized
    ∧ login dbAB ⟨"b@y.com", "hunter2aa"⟩ 0 "k" = .error (.UnprocessableEntity verifyEmailMsg) := by
  refine ⟨(C4_login_outcomes dbAB ⟨"nobody@x.com", "password123"⟩ 0 "k").1 (by decide),
    (C4_login_outcomes dbAB ⟨"a@x.com", "wrongpass99"⟩ 0 "k").2.1 alice (by decide) (by decide),
    (C4_login_outcomes dbAB ⟨"b@y.com", "hunter2aa"⟩ 0 "k").2.2.1 bob (by decide) (by decide)
      (by decide)⟩

/-! ### Live-token lookup (C2) -/

/-- A consumed email-verification token for user 1. -/
def usedTok : AuthToken := ⟨3, 1, "UU", "email_verification", 1000, some 5, 0⟩

/-- An expired email-verification token for user 1. -/
def expiredTok : AuthToken := ⟨4, 1, "EE", "email_verification", 10, none, 0⟩

/-- A live email-verification token for user 2. -/
def liveTok : AuthToken := ⟨5, 2, "TT", "email_verification", 1000, none, 0⟩

/-- The two-user database together with a used, an expired and a live token. -/
def dbTok : Db := ⟨[alice, bob], [usedTok, expiredTok, liveTok]⟩

/-- Claim C2: the live-token lookup succeeds exactly when a stored token with
that string and type is unused and unexpired; anything it returns is such a
token (so a consumed token can never satisfy it again); and both verify-email
and reset-password collapse every miss into the one
"Invalid or expired token" failure. -/
theorem C2_find_live (tokens : List AuthToken) (s ty : String) (now : Int) :
    ((find_live tokens s ty now).isSome ↔
      ∃ t ∈ tokens, t.token = s ∧ t.token_type = ty ∧ now < t.expires_at ∧ t.used_at = none)
    ∧ (∀ t, find_live tokens s ty now = some t →
        t ∈ tokens ∧ t.token = s ∧ t.token_type = ty ∧ now < t.expires_at ∧ t.used_at = none)
    ∧ (∀ t ∈ tokens, t.used_at ≠ none → find_live tokens s ty now ≠ some t)
    ∧ (∀ db env, find_live db.tokens s "email_verification" env.now = none →
        (verify_email db s env).2 = .error (.BadRequest "Invalid or expired token"))
    ∧ (∀ db pw salt env, find_live db.tokens s "password_reset" env.now = none →
        (reset_password db s pw salt env).2 = .error (.BadRequest "Invalid or expired token")) := by
  have hmain : ∀ t, find_live tokens s ty now = some t →
      t ∈ tokens ∧ t.token = s ∧ t.token_type = ty ∧ now < t.expires_at ∧ t.used_at = none := by
    intro t h
    have hmem := List.mem_of_find?_eq_some h
    have hp := List.find?_some h
    simp only [Bool.and_eq_true, beq_iff_eq, decide_eq_true_eq, Option.isNone_iff_eq_none] at hp
    exact ⟨hmem, hp.1.1.1, hp.1.1.2, hp.1.2, hp.2⟩
  refine ⟨?_, hmain, ?_, ?_, ?_⟩
  · unfold find_live
    rw [List.find?_isSome]
    constructor
    · rintro ⟨t, ht, hp⟩
      simp only [Bool.and_eq_true, beq_iff_eq, decide_eq_true_eq, Option.isNone_iff_eq_none] at hp
      exact ⟨t, ht, hp.1.1.1, hp.1.1.2, hp.1.2, hp.2⟩
    · rintro ⟨t, ht, h1, h2, h3, h4⟩
      refine ⟨t, ht, ?_⟩
      simp [h1, h2, h3, h4]
  · intro t _ hused hfind
    exact hused (hmain t hfind).2.2.2.2
  · intro db env h
    simp [verify_email, h]
  · intro db pw salt env h
    simp [reset_password, h]

/-- Witness for C2: the consumed token is never returned even though its
expiry has not elapsed, and the collapsed failure at concrete inputs. -/
theorem C2_witness :
    (usedTok ∈ dbTok.tokens
      ∧ usedTok.used_at ≠ none
      ∧ find_live dbTok.tokens "UU" "email_verification" 100 ≠ some usedTok)
    ∧ (verify_email dbTok "EE" ⟨100, true⟩).2 = .error (.BadRequest "Invalid or expired token")
    ∧ (reset_password dbTok "TT" "newpass1234" 7 ⟨100, true⟩).2
        = .error (.BadRequest "Invalid or expired token") := by
  refine ⟨⟨by decide, by decide,
      (C2_find_live dbTok.tokens "UU" "email_verification" 100).2.2.1 usedTok (by decide)
        (by decide)⟩,
    (C2_find_live dbTok.tokens "EE" "email_verification" 100).2.2.2.1 dbTok ⟨100, true⟩
      (by decide),
    (C2_find_live dbTok.tokens "TT" "password_reset" 100).2.2.2.2 dbTok "newpass1234" 7
      ⟨100, true⟩ (by decide)⟩

/-! ### Token time-to-live (C9) -/

/-- Claim C9: every email-verification token is persisted with expiry exactly
24 hours (86400 s) after issuance — by signup and by resend-verification —
and every password-reset token with expiry exactly 1 hour (3600 s) after
issuance. -/
theorem C9_token_ttl :
    (∀ db req env m u, (signup db req env).2 = .ok (m, u) →
      (signup db req env).1.tokens = db.tokens ++
        [⟨env.tokId, env.uuid, env.tokStr, "email_verification", env.now + 86400, none, env.now⟩])
    ∧ (∀ db email env u, findUserByEmail db email = some u → u.email_verified = false →
        env.invalidateOk = true → env.insertOk = true →
        (resend_verification db email env).1.tokens =
          invalidateLive db.tokens u.id "email_verification" env.now ++
            [⟨env.tokId, u.id, env.tokStr, "email_verification", env.now + 86400, none, env.now⟩])
    ∧ (∀ db email env u, findUserByEmail db email = some u →
        env.invalidateOk = true → env.insertOk = true →
        (forgot_password db email env).1.tokens =
          invalidateLive db.tokens u.id "password_reset" env.now ++
            [⟨env.tokId, u.id, env.tokStr, "password_reset", env.now + 3600, none, env.now⟩]) := by
  refine ⟨?_, ?_, ?_⟩
  · intro db req env m u h
    by_cases hdup : db.users.any
        (fun u => u.id == env.uuid || u.username == req.username || u.email == req.email)
    · simp [signup, hdup] at h
    · by_cases huok : env.userInsertOk
      · by_cases htok : env.tokenInsertOk
        · simp [signup, hdup, huok, htok]
        · simp [signup, hdup, huok, htok] at h
      · simp [signup, hdup, huok] at h
  · intro db email env u hu hnv hiok hins
    simp [resend_verification, hu, hnv, hiok, hins]
  · intro db email env u hu hiok hins
    simp [forgot_password, hu, hiok, hins]

/-- Witness for C9 at concrete signup, resend and forgot-password calls. -/
theorem C9_witness :
    (signup Db.empty ⟨"carol", "c@z.com", "longpassword"⟩ ⟨9, 4, 11, "NT", 50, true, true⟩).1.tokens
      = Db.empty.tokens ++ [⟨11, 9, "NT", "email_verification", 50 + 86400, none, 50⟩]
    ∧ (resend_verification dbTok "b@y.com" ⟨12, "RT", 60, true, true⟩).1.tokens =
        invalidateLive dbTok.tokens 2 "email_verification" 60 ++
          [⟨12, 2, "RT", "email_verification", 60 + 86400, none, 60⟩]
    ∧ (forgot_password dbTok "b@y.com" ⟨13, "FT", 70, true, true⟩).1.tokens =
        invalidateLive dbTok.tokens 2 "password_reset" 70 ++
          [⟨13, 2, "FT", "password_reset", 70 + 3600, none, 70⟩] := by
  have h := C9_token_ttl
  refine ⟨?_, ?_, ?_⟩
  · exact h.1 Db.empty ⟨"carol", "c@z.com", "longpassword"⟩ ⟨9, 4, 11, "NT", 50, true, true⟩
      signupMsg ⟨9, "carol", "c@z.com", none, none, false⟩ (by decide)
  · exact h.2.1 dbTok "b@y.com" ⟨12, "RT", 60, true, true⟩ bob (by decide) (by decide) rfl rfl
  · exact h.2.2 dbTok "b@y.com" ⟨13, "FT", 70, true, true⟩ bob (by decide) rfl rfl

/-! ### Signup non-transactional partial failure (C10) -/

/-- Claim C10: the user INSERT and the token INSERT of signup are separate
statements with no transaction: when the user insert succeeds and the token
insert fails, the handler returns an internal error yet the new unverified
user row persists and no token row exists. -/
theorem C10_signup_partial_failure (db : Db) (req : RegisterUser) (env : SignupEnv)
    (hdup : db.users.any
      (fun u => u.id == env.uuid || u.username == req.username || u.email == req.email) = false)
    (huser : env.userInsertOk = true) (htok : env.tokenInsertOk = false) :
    (signup db req env).2 = .error .InternalServerError
    ∧ (signup db req env).1.users = db.users ++
        [⟨env.uuid, req.username, req.email, none, none,
          hash_password env.salt req.password, false, env.now, env.now⟩]
    ∧ (signup db req env).1.tokens = db.tokens := by
  simp [signup, hdup, huser, htok]

/-- Witness for C10: a concrete signup whose token insert fails leaves the
user row behind and reports an internal error. -/
theorem C10_witness :
    (signup Db.empty ⟨"carol", "c@z.com", "longpassword"⟩ ⟨9, 4, 11, "NT", 50, true, false⟩).2
      = .error .InternalServerError
    ∧ (signup Db.empty ⟨"carol", "c@z.com", "longpassword"⟩ ⟨9, 4, 11, "NT", 50, true, false⟩).1.users
      = [] ++ [⟨9, "carol", "c@z.com", none, none,
          hash_password 4 "longpassword", false, 50, 50⟩]
    ∧ (signup Db.empty ⟨"carol", "c@z.com", "longpassword"⟩ ⟨9, 4, 11, "NT", 50, true, false⟩).1.tokens
      = [] := by
  exact C10_signup_partial_failure Db.empty ⟨"carol", "c@z.com", "longpassword"⟩
    ⟨9, 4, 11, "NT", 50, true, false⟩ (by decide) rfl rfl

/-! ### Enumeration resistance (C1) -/

/-- Counterexample to claim C1 as stated: at a concrete database holding a
verified account, resend-verification answers "Email is already verified.",
which differs from the generic success message of the absent-account path. -/
theorem C1_counterexample :
    (resend_verification dbAB "a@x.com" ⟨7, "NT", 100, true, true⟩).2
      = .ok "Email is already verified."
    ∧ (resend_verification dbAB "missing@x.com" ⟨7, "NT", 100, true, true⟩).2
      = .ok resendGenericMsg
    ∧ "Email is already verified." ≠ resendGenericMsg := by
  refine ⟨by decide, by decide, by decide⟩

/-- Claim C1 (amended): forgot-password always succeeds with the identical
generic message regardless of account state, and resend-verification succeeds
with the generic message when the account is absent or a token is actually
reissued, but with the distinct message "Email is already verified." when the
account exists and is already verified. -/
theorem C1_enumeration_amended (db : Db) (email : String) (env : ReissueEnv) :
    (∀ m, (forgot_password db email env).2 = .ok m → m = forgotGenericMsg)
    ∧ (∀ m, (resend_verification db email env).2 = .ok m →
        m = match findUserByEmail db email with
            | none => resendGenericMsg
            | some u => if u.email_verified then "Email is already verified."
                        else resendGenericMsg) := by
  constructor
  · intro m h
    revert h
    unfold forgot_password
    cases hfe : findUserByEmail db email with
    | none => intro h; cases h; rfl
    | some u =>
      by_cases hiok : env.invalidateOk
      · by_cases hins : env.insertOk
        · simp [hiok, hins]
          intro h; exact h.symm
        · simp [hiok, hins]
      · simp [hiok]
  · intro m h
    revert h
    unfold resend_verification
    cases hfe : findUserByEmail db email with
    | none => intro h; cases h; rfl
    | some u =>
      by_cases hv : u.email_verified
      · simp [hv]
        intro h; exact h.symm
      · by_cases hiok : env.invalidateOk
        · by_cases hins : env.insertOk
          · simp [hv, hiok, hins]
            intro h; exact h.symm
          · simp [hv, hiok, hins]
        · simp [hv, hiok]

/-- Witness for C1 (amended): a found account and an absent account both get
the generic forgot-password message, and an absent account gets the generic
resend message. -/
theorem C1_witness :
    ((forgot_password dbAB "a@x.com" ⟨7, "NT", 100, true, true⟩).2 = .ok forgotGenericMsg →
      forgotGenericMsg = forgotGenericMsg)
    ∧ (forgotGenericMsg = forgotGenericMsg)
    ∧ (resendGenericMsg = match findUserByEmail dbAB "missing@x.com" with
        | none => resendGenericMsg
        | some u => if u.email_verified then "Email is already verified."
                    else resendGenericMsg) := by
  refine ⟨?_, ?_, ?_⟩
  · exact (C1_enumeration_amended dbAB "a@x.com" ⟨7, "NT", 100, true, true⟩).1 forgotGenericMsg
  · exact (C1_enumeration_amended dbAB "a@x.com" ⟨7, "NT", 100, true, true⟩).1 forgotGenericMsg
      (by decide)
  · exact ((C1_enumeration_amended dbAB "missing@x.com" ⟨7, "NT", 100, true, true⟩).2
      resendGenericMsg (by decide)).symm

/-! ### Hard serialization boundary (C6) -/

/-- Replaces every stored password hash according to `f`, leaving every other
column untouched. -/
def rehashUsers (f : User → String) (db : Db) : Db :=
  { db with users := db.users.map (fun u => { u with password_hash := f u }) }

theorem findUserById_rehash (f : User → String) (db : Db) (i : Nat) :
    findUserById (rehashUsers f db) i
      = Option.map (fun u => { u with password_hash := f u }) (findUserById db i) := by
  unfold findUserById rehashUsers
  rw [List.find?_map]
  rfl

/-- Claim C6: the public projection has no password-hash field — it is
invariant under any change of the stored hash — and every user value returned
by get-user-by-id, get-me, login and signup is such a projection, so the
serialized response never varies with the stored hash on any of these paths. -/
theorem C6_public_projection :
    (∀ u h, UserResponse.fromUser { u with password_hash := h } = UserResponse.fromUser u)
    ∧ (∀ f db i, get_user_by_id (rehashUsers f db) i = get_user_by_id db i)
    ∧ (∀ f db c, get_me (rehashUsers f db) c = get_me db c)
    ∧ (∀ db req now secret tok ur, login db req now secret = .ok (tok, ur) →
        ∃ u ∈ db.users, ur = UserResponse.fromUser u)
    ∧ (∀ db req env m ur, (signup db req env).2 = .ok (m, ur) →
        ∃ u, ur = UserResponse.fromUser u) := by
  have hproj : ∀ u h, UserResponse.fromUser { u with password_hash := h }
      = UserResponse.fromUser u := fun u h => rfl
  refine ⟨hproj, ?_, ?_, ?_, ?_⟩
  · intro f db i
    unfold get_user_by_id
    rw [findUserById_rehash]
    cases findUserById db i with
    | none => rfl
    | some u => exact congrArg Except.ok (hproj u (f u))
  · intro f db c
    unfold get_me
    rw [findUserById_rehash]
    cases findUserById db c.sub with
    | none => rfl
    | some u => exact congrArg Except.ok (hproj u (f u))
  · intro db req now secret tok ur h
    revert h
    unfold login
    cases hfe : findUserByEmail db req.email with
    | none => intro h; cases h
    | some u =>
      by_cases hv : verify_password u.password_hash req.password
      · by_cases hver : u.email_verified
        · simp [hv, hver]
          intro _ hur
          exact ⟨u, List.mem_of_find?_eq_some hfe, hur.symm⟩
        · simp [hv, hver]
      · simp [hv]
  · intro db req env m ur h
    revert h
    unfold signup
    by_cases hdup : db.users.any
        (fun u => u.id == env.uuid || u.username == req.username || u.email == req.email)
    · simp [hdup]
    · by_cases huok : env.userInsertOk
      · by_cases htok : env.tokenInsertOk
        · simp [hdup, huok, htok]
          intro _ hur
          exact ⟨⟨env.uuid, req.username, req.email, none, none,
            hash_password env.salt req.password, false, env.now, env.now⟩, hur.symm⟩
        · simp [hdup, huok, htok]
      · simp [hdup, huok]

/-- Witness for C6: a successful concrete login returns a public projection
of a stored user. -/
theorem C6_witness :
    ∃ u ∈ dbAB.users,
      (UserResponse.mk 1 "alice" "a@x.com" none none true) = UserResponse.fromUser u := by
  exact C6_public_projection.2.2.2.1 dbAB ⟨"a@x.com", "password123"⟩ 0 "k"
    (create_token 0 1 "k") ⟨1, "alice", "a@x.com", none, none, true⟩ (by decide)

/-! ### Atomic consume-plus-effect transactions (C3) -/

theorem markUsed_mem (l : List AuthToken) (tid : Nat) (now : Int) :
    ∀ tok ∈ markUsed l tid now, tok.id = tid → tok.used_at = some now := by
  intro tok htok hid
  rcases List.mem_map.1 htok with ⟨t, _, rfl⟩
  by_cases h : t.id = tid
  · simp [h]
  · rw [if_neg h] at hid ⊢
    exact absurd hid h

theorem setVerified_mem (l : List User) (uid : Nat) (now : Int) :
    ∀ u ∈ setVerified l uid now, u.id = uid → u.email_verified = true := by
  intro u hu hid
  rcases List.mem_map.1 hu with ⟨u0, _, rfl⟩
  by_cases h : u0.id = uid
  · simp [h]
  · rw [if_neg h] at hid ⊢
    exact absurd hid h

theorem setPassword_mem (l : List User) (uid : Nat) (h : String) (now : Int) :
    ∀ u ∈ setPassword l uid h now, u.id = uid →
      u.password_hash = h ∧ u.updated_at = now := by
  intro u hu hid
  rcases List.mem_map.1 hu with ⟨u0, _, rfl⟩
  by_cases hc : u0.id = uid
  · simp [hc]
  · rw [if_neg hc] at hid ⊢
    exact absurd hid hc

/-- Claim C3: in verify-email and reset-password the token consumption and
the gated user mutation are one atomic transaction: on any failure the state
is exactly the pre-state (token unconsumed, user untouched), and on success
the found token is marked used and the gated effect is applied, both. -/
theorem C3_atomic_transactions (db : Db) (s pw : String) (salt : Nat) (env : TxEnv) :
    (∀ e, (verify_email db s env).2 = .error e → (verify_email db s env).1 = db)
    ∧ (∀ m, (verify_email db s env).2 = .ok m →
        ∃ t, find_live db.tokens s "email_verification" env.now = some t
          ∧ (verify_email db s env).1.tokens = markUsed db.tokens t.id env.now
          ∧ (verify_email db s env).1.users = setVerified db.users t.user_id env.now
          ∧ (∀ tok ∈ (verify_email db s env).1.tokens, tok.id = t.id →
              tok.used_at = some env.now)
          ∧ (∀ u ∈ (verify_email db s env).1.users, u.id = t.user_id →
              u.email_verified = true))
    ∧ (∀ e, (reset_password db s pw salt env).2 = .error e →
        (reset_password db s pw salt env).1 = db)
    ∧ (∀ m, (reset_password db s pw salt env).2 = .ok m →
        ∃ t, find_live db.tokens s "password_reset" env.now = some t
          ∧ (reset_password db s pw salt env).1.tokens = markUsed db.tokens t.id env.now
          ∧ (∀ tok ∈ (reset_password db s pw salt env).1.tokens, tok.id = t.id →
              tok.used_at = some env.now)
          ∧ (∀ u ∈ (reset_password db s pw salt env).1.users, u.id = t.user_id →
              u.password_hash = hash_password salt pw ∧ u.updated_at = env.now)) := by
  refine ⟨?_, ?_, ?_, ?_⟩
  · intro e
    unfold verify_email
    cases hfl : find_live db.tokens s "email_verification" env.now with
    | none => intro _; rfl
    | some t =>
      by_cases hc : (findUserById db t.user_id).isSome ∧ env.commitOk
      · simp [hc]
      · simp [hc]
  · intro m
    unfold verify_email
    cases hfl : find_live db.tokens s "email_verification" env.now with
    | none => intro h; cases h
    | some t =>
      by_cases hc : (findUserById db t.user_id).isSome ∧ env.commitOk
      · simp only [hc, if_true, if_pos hc]
        intro _
        exact ⟨t, rfl, rfl, rfl, markUsed_mem db.tokens t.id env.now,
          setVerified_mem db.users t.user_id env.now⟩
      · simp [hc]
  · intro e
    unfold reset_password
    cases hfl : find_live db.tokens s "password_reset" env.now with
    | none => intro _; rfl
    | some t =>
      by_cases hc : env.commitOk
      · simp [hc]
      · simp [hc]
  · intro m
    unfold reset_password
    cases hfl : find_live db.tokens s "password_reset" env.now with
    | none => intro h; cases h
    | some t =>
      by_cases hc : env.commitOk
      · simp only [hc, if_true, if_pos hc]
        intro _
        exact ⟨t, rfl, rfl, markUsed_mem db.tokens t.id env.now,
          setPassword_mem db.users t.user_id (hash_password salt pw) env.now⟩
      · simp [hc]

/-- Witness for C3: at a concrete database, a failed commit leaves the state
untouched and a successful verify-email consumes and verifies atomically. -/
theorem C3_witness :
    (verify_email dbTok "TT" ⟨100, false⟩).1 = dbTok
    ∧ (∃ t, find_live dbTok.tokens "TT" "email_verification" 100 = some t
        ∧ (verify_email dbTok "TT" ⟨100, true⟩).1.tokens = markUsed dbTok.tokens t.id 100
        ∧ (verify_email dbTok "TT" ⟨100, true⟩).1.users = setVerified dbTok.users t.user_id 100
        ∧ (∀ tok ∈ (verify_email dbTok "TT" ⟨100, true⟩).1.tokens, tok.id = t.id →
            tok.used_at = some 100)
        ∧ (∀ u ∈ (verify_email dbTok "TT" ⟨100, true⟩).1.users, u.id = t.user_id →
            u.email_verified = true)) := by
  refine ⟨?_, ?_⟩
  · exact (C3_atomic_transactions dbTok "TT" "x" 0 ⟨100, false⟩).1 .InternalServerError
      (by decide)
  · exact (C3_atomic_transactions dbTok "TT" "x" 0 ⟨100, true⟩).2.1
      "Email verified successfully" (by decide)

/-! ### Single-live-token invariant (C5) -/

/-- The derived liveness predicate of the design notes:
`is_live(token, now) = used_at.is_none() && now < expires_at`. -/
def is_live (t : AuthToken) (now : Int) : Prop := t.used_at = none ∧ now < t.expires_at

instance (t : AuthToken) (now : Int) : Decidable (is_live t now) := by
  unfold is_live
  infer_instance

/-- All stored tokens of one (user, type) pair, in insertion order. -/
def pairTokens (tokens : List AuthToken) (uid : Nat) (ty : String) : List AuthToken :=
  tokens.filter (fun t => t.user_id == uid && t.token_type == ty)

/-- Every not-yet-consumed token is the newest (last-inserted) token of its
(user, type) pair; in particular each pair has at most one unused token. -/
def NewestOnly (tokens : List AuthToken) : Prop :=
  ∀ t ∈ tokens, t.used_at = none →
    (pairTokens tokens t.user_id t.token_type).getLast? = some t

/-- Foreign-key fact enforced by the schema: every token row references an
existing user row. -/
def TokensOwned (db : Db) : Prop := ∀ t ∈ db.tokens, ∃ u ∈ db.users, u.id = t.user_id

/-- The inductive state invariant. -/
def Inv (db : Db) : Prop := TokensOwned db ∧ NewestOnly db.tokens

/-- One state transition: any auth operation run with any request payload,
randomness and statement oracles. -/
inductive Step : Db → Db → Prop where
  | stepSignup (db : Db) (req : RegisterUser) (env : SignupEnv) :
      Step db (signup db req env).1
  | stepVerify (db : Db) (s : String) (env : TxEnv) :
      Step db (verify_email db s env).1
  | stepResend (db : Db) (email : String) (env : ReissueEnv) :
      Step db (resend_verification db email env).1
  | stepForgot (db : Db) (email : String) (env : ReissueEnv) :
      Step db (forgot_password db email env).1
  | stepReset (db : Db) (s pw : String) (salt : Nat) (env : TxEnv) :
      Step db (reset_password db s pw salt env).1

/-- States reachable from the empty database by sequences of operations. -/
def Reach (db : Db) : Prop := Relation.ReflTransGen Step Db.empty db

/-- The per-token function applied by the invalidation UPDATE. -/
def invFun (uid : Nat) (ty : String) (now : Int) (t : AuthToken) : AuthToken :=
  if t.user_id = uid ∧ t.token_type = ty ∧ t.used_at = none
  then { t with used_at := some now } else t

theorem invalidateLive_eq_map (l : List AuthToken) (uid : Nat) (ty : String) (now : Int) :
    invalidateLive l uid ty now = l.map (invFun uid ty now) := rfl

/-- The per-token function applied by the consume UPDATE. -/
def markFun (tid : Nat) (now : Int) (t : AuthToken) : AuthToken :=
  if t.id = tid then { t with used_at := some now } else t

theorem markUsed_eq_map (l : List AuthToken) (tid : Nat) (now : Int) :
    markUsed l tid now = l.map (markFun tid now) := rfl

theorem invFun_pres (uid : Nat) (ty : String) (now : Int) (t : AuthToken) :
    (invFun uid ty now t).user_id = t.user_id
    ∧ (invFun uid ty now t).token_type = t.token_type := by
  unfold invFun
  split <;> exact ⟨rfl, rfl⟩

theorem invFun_unused (uid : Nat) (ty : String) (now : Int) (t : AuthToken)
    (h : (invFun uid ty now t).used_at = none) : invFun uid ty now t = t := by
  unfold invFun at h ⊢
  split at h
  · cases h
  · next hnp => rw [if_neg hnp]

theorem markFun_pres (tid : Nat) (now : Int) (t : AuthToken) :
    (markFun tid now t).user_id = t.user_id
    ∧ (markFun tid now t).token_type = t.token_type := by
  unfold markFun
  split <;> exact ⟨rfl, rfl⟩

theorem markFun_unused (tid : Nat) (now : Int) (t : AuthToken)
    (h : (markFun tid now t).used_at = none) : markFun tid now t = t := by
  unfold markFun at h ⊢
  split at h
  · cases h
  · next hp => rw [if_neg hp]

theorem pairTokens_map (f : AuthToken → AuthToken)
    (hf : ∀ t, (f t).user_id = t.user_id ∧ (f t).token_type = t.token_type)
    (l : List AuthToken) (uid : Nat) (ty : String) :
    pairTokens (l.map f) uid ty = (pairTokens l uid ty).map f := by
  unfold pairTokens
  rw [List.filter_map]
  congr 1
  apply List.filter_congr
  intro t _
  simp only [Function.comp_apply, (hf t).1, (hf t).2]

theorem pairTokens_append_one (l : List AuthToken) (a : AuthToken) (uid : Nat) (ty : String) :
    pairTokens (l ++ [a]) uid ty = pairTokens l uid ty ++ pairTokens [a] uid ty := by
  unfold pairTokens
  exact List.filter_append l [a]

theorem pairTokens_single_pos (a : AuthToken) (uid : Nat) (ty : String)
    (h1 : a.user_id = uid) (h2 : a.token_type = ty) : pairTokens [a] uid ty = [a] := by
  simp [pairTokens, h1, h2]

theorem pairTokens_single_neg (a : AuthToken) (uid : Nat) (ty : String)
    (h : ¬(a.user_id = uid ∧ a.token_type = ty)) : pairTokens [a] uid ty = [] := by
  have hb : (a.user_id == uid && a.token_type == ty) = false := by
    by_cases h1 : a.user_id = uid
    · by_cases h2 : a.token_type = ty
      · exact absurd ⟨h1, h2⟩ h
      · simp [h2]
    · simp [h1]
  simp [pairTokens, List.filter_cons, hb]

/-- A pair-preserving map that never unconsumes a token preserves the
newest-only invariant. -/
theorem NewestOnly_map (f : AuthToken → AuthToken)
    (hpres : ∀ t, (f t).user_id = t.user_id ∧ (f t).token_type = t.token_type)
    (hunused : ∀ t, (f t).used_at = none → f t = t)
    (l : List AuthToken) (h : NewestOnly l) : NewestOnly (l.map f) := by
  intro t ht hun
  rcases List.mem_map.1 ht with ⟨t0, ht0, rfl⟩
  have hfix : f t0 = t0 := hunused t0 hun
  rw [hfix] at hun ⊢
  rw [pairTokens_map f hpres, List.getLast?_map, h t0 ht0 hun, Option.map_some', hfix]

/-- Invalidating every unused token of a pair and then appending one fresh
unused token of that pair preserves the newest-only invariant. -/
theorem NewestOnly_invalidate_append (l : List AuthToken) (uid : Nat) (ty : String)
    (now : Int) (a : AuthToken)
    (ha : a.user_id = uid) (hty : a.token_type = ty)
    (h : NewestOnly l) :
    NewestOnly (invalidateLive l uid ty now ++ [a]) := by
  intro t ht hun
  rw [invalidateLive_eq_map] at ht ⊢
  rcases List.mem_append.1 ht with hmem | hmem
  · rcases List.mem_map.1 hmem with ⟨t0, ht0, rfl⟩
    have hfix : invFun uid ty now t0 = t0 := invFun_unused uid ty now t0 hun
    rw [hfix] at hun ⊢
    have hnp : ¬(t0.user_id = uid ∧ t0.token_type = ty) := by
      rintro ⟨hp1, hp2⟩
      have hmark : invFun uid ty now t0 = { t0 with used_at := some now } := by
        unfold invFun
        rw [if_pos ⟨hp1, hp2, hun⟩]
      rw [hfix] at hmark
      have := congrArg AuthToken.used_at hmark
      rw [hun] at this
      cases this
    rw [pairTokens_append_one, pairTokens_single_neg a t0.user_id t0.token_type
      (fun hand => hnp ⟨by rw [← hand.1, ha], by rw [← hand.2, hty]⟩),
      List.append_nil, pairTokens_map (invFun uid ty now) (invFun_pres uid ty now),
      List.getLast?_map, h t0 ht0 hun, Option.map_some', hfix]
  · have hta : t = a := by simpa using hmem
    rw [hta]
    rw [pairTokens_append_one, pairTokens_single_pos a a.user_id a.token_type rfl rfl]
    exact List.getLast?_concat _

/-- Appending an unused token for a user who owns no stored token preserves
the newest-only invariant. -/
theorem NewestOnly_append_fresh (l : List AuthToken) (a : AuthToken)
    (hfresh : ∀ t ∈ l, t.user_id ≠ a.user_id)
    (h : NewestOnly l) : NewestOnly (l ++ [a]) := by
  intro t ht hun
  rcases List.mem_append.1 ht with hmem | hmem
  · rw [pairTokens_append_one, pairTokens_single_neg a t.user_id t.token_type
      (fun hand => hfresh t hmem hand.1.symm), List.append_nil]
    exact h t hmem hun
  · have hta : t = a := by simpa using hmem
    rw [hta]
    rw [pairTokens_append_one, pairTokens_single_pos a a.user_id a.token_type rfl rfl]
    exact List.getLast?_concat _

/-- The per-user function applied by the email-verification UPDATE. -/
def verFun (uid : Nat) (now : Int) (u : User) : User :=
  if u.id = uid then { u with email_verified := true, updated_at := now } else u

theorem setVerified_eq_map (l : List User) (uid : Nat) (now : Int) :
    setVerified l uid now = l.map (verFun uid now) := rfl

/-- The per-user function applied by the password-overwrite UPDATE. -/
def pwFun (uid : Nat) (h : String) (now : Int) (u : User) : User :=
  if u.id = uid then { u with password_hash := h, updated_at := now } else u

theorem setPassword_eq_map (l : List User) (uid : Nat) (h : String) (now : Int) :
    setPassword l uid h now = l.map (pwFun uid h now) := rfl

theorem verFun_id (uid : Nat) (now : Int) (u : User) : (verFun uid now u).id = u.id := by
  unfold verFun
  split <;> rfl

theorem pwFun_id (uid : Nat) (h : String) (now : Int) (u : User) :
    (pwFun uid h now u).id = u.id := by
  unfold pwFun
  split <;> rfl

theorem TokensOwned_map (db : Db) (f : AuthToken → AuthToken) (g : User → User)
    (hf : ∀ t, (f t).user_id = t.user_id) (hg : ∀ u, (g u).id = u.id)
    (h : TokensOwned db) : TokensOwned ⟨db.users.map g, db.tokens.map f⟩ := by
  intro t ht
  rcases List.mem_map.1 ht with ⟨t0, ht0, rfl⟩
  rcases h t0 ht0 with ⟨u, hu, hid⟩
  exact ⟨g u, List.mem_map.2 ⟨u, hu, rfl⟩, by rw [hg u, hf t0]; exact hid⟩

/-! Characterization of each operation's resulting state. -/

theorem signup_state (db : Db) (req : RegisterUser) (env : SignupEnv) :
    (signup db req env).1 = db
    ∨ (signup db req env).1 = ⟨db.users ++ [⟨env.uuid, req.username, req.email, none, none,
        hash_password env.salt req.password, false, env.now, env.now⟩], db.tokens⟩
    ∨ ((signup db req env).1 = ⟨db.users ++ [⟨env.uuid, req.username, req.email, none, none,
          hash_password env.salt req.password, false, env.now, env.now⟩],
        db.tokens ++ [⟨env.tokId, env.uuid, env.tokStr, "email_verification",
          env.now + 86400, none, env.now⟩]⟩
      ∧ (∀ u ∈ db.users, u.id ≠ env.uuid)) := by
  unfold signup
  by_cases hdup : db.users.any
      (fun u => u.id == env.uuid || u.username == req.username || u.email == req.email)
  · left
    simp [hdup]
  · by_cases huok : env.userInsertOk
    · by_cases htok : env.tokenInsertOk
      · right; right
        refine ⟨by simp [hdup, huok, htok], ?_⟩
        intro u hu hid
        apply hdup
        rw [List.any_eq_true]
        exact ⟨u, hu, by simp [hid]⟩
      · right; left
        simp [hdup, huok, htok]
    · left
      simp [hdup, huok]

theorem verify_state (db : Db) (s : String) (env : TxEnv) :
    (verify_email db s env).1 = db
    ∨ ∃ t : AuthToken, (verify_email db s env).1
        = ⟨setVerified db.users t.user_id env.now, markUsed db.tokens t.id env.now⟩ := by
  unfold verify_email
  cases hfl : find_live db.tokens s "email_verification" env.now with
  | none => left; rfl
  | some t =>
    by_cases hc : (findUserById db t.user_id).isSome ∧ env.commitOk
    · right
      refine ⟨t, ?_⟩
      simp [hc]
    · left
      simp [hc]

theorem reset_state (db : Db) (s pw : String) (salt : Nat) (env : TxEnv) :
    (reset_password db s pw salt env).1 = db
    ∨ ∃ t : AuthToken, (reset_password db s pw salt env).1
        = ⟨setPassword db.users t.user_id (hash_password salt pw) env.now,
           markUsed db.tokens t.id env.now⟩ := by
  unfold reset_password
  cases hfl : find_live db.tokens s "password_reset" env.now with
  | none => left; rfl
  | some t =>
    by_cases hc : env.commitOk
    · right
      refine ⟨t, ?_⟩
      simp [hc]
    · left
      simp [hc]

theorem resend_state (db : Db) (email : String) (env : ReissueEnv) :
    (resend_verification db email env).1 = db
    ∨ ∃ u, findUserByEmail db email = some u
        ∧ ((resend_verification db email env).1
            = ⟨db.users, invalidateLive db.tokens u.id "email_verification" env.now⟩
          ∨ (resend_verification db email env).1
            = ⟨db.users, invalidateLive db.tokens u.id "email_verification" env.now
                ++ [⟨env.tokId, u.id, env.tokStr, "email_verification",
                    env.now + 86400, none, env.now⟩]⟩) := by
  unfold resend_verification
  cases hfe : findUserByEmail db email with
  | none => left; rfl
  | some u =>
    by_cases hv : u.email_verified
    · left
      simp [hv]
    · by_cases hiok : env.invalidateOk
      · by_cases hins : env.insertOk
        · right
          exact ⟨u, rfl, Or.inr (by simp [hv, hiok, hins])⟩
        · right
          exact ⟨u, rfl, Or.inl (by simp [hv, hiok, hins])⟩
      · left
        simp [hv, hiok]

theorem forgot_state (db : Db) (email : String) (env : ReissueEnv) :
    (forgot_password db email env).1 = db
    ∨ ∃ u, findUserByEmail db email = some u
        ∧ ((forgot_password db email env).1
            = ⟨db.users, invalidateLive db.tokens u.id "password_reset" env.now⟩
          ∨ (forgot_password db email env).1
            = ⟨db.users, invalidateLive db.tokens u.id "password_reset" env.now
                ++ [⟨env.tokId, u.id, env.tokStr, "password_reset",
                    env.now + 3600, none, env.now⟩]⟩) := by
  unfold forgot_password
  cases hfe : findUserByEmail db email with
  | none => left; rfl
  | some u =>
    by_cases hiok : env.invalidateOk
    · by_cases hins : env.insertOk
      · right
        exact ⟨u, rfl, Or.inr (by simp [hiok, hins])⟩
      · right
        exact ⟨u, rfl, Or.inl (by simp [hiok, hins])⟩
    · left
      simp [hiok]

/-- Preservation of the invariant under the reissue shape shared by
resend-verification and forgot-password. -/
theorem Inv_reissue (db : Db) (u : User) (hu : u ∈ db.users) (ty : String) (now : Int)
    (a : AuthToken) (hauid : a.user_id = u.id) (haty : a.token_type = ty)
    (hown : TokensOwned db) (hnew : NewestOnly db.tokens) :
    Inv ⟨db.users, invalidateLive db.tokens u.id ty now⟩
    ∧ Inv ⟨db.users, invalidateLive db.tokens u.id ty now ++ [a]⟩ := by
  constructor
  · constructor
    · intro t ht
      rw [invalidateLive_eq_map] at ht
      rcases List.mem_map.1 ht with ⟨t0, ht0, rfl⟩
      rcases hown t0 ht0 with ⟨w, hw, hid⟩
      exact ⟨w, hw, by rw [(invFun_pres u.id ty now t0).1]; exact hid⟩
    · exact NewestOnly_map (invFun u.id ty now) (invFun_pres u.id ty now)
        (invFun_unused u.id ty now) db.tokens hnew
  · constructor
    · intro t ht
      rcases List.mem_append.1 ht with hmem | hmem
      · rw [invalidateLive_eq_map] at hmem
        rcases List.mem_map.1 hmem with ⟨t0, ht0, rfl⟩
        rcases hown t0 ht0 with ⟨w, hw, hid⟩
        exact ⟨w, hw, by rw [(invFun_pres u.id ty now t0).1]; exact hid⟩
      · have hta : t = a := by simpa using hmem
        rw [hta, hauid]
        exact ⟨u, hu, rfl⟩
    · exact NewestOnly_invalidate_append db.tokens u.id ty now a hauid haty hnew

/-- Every auth operation preserves the invariant. -/
theorem Inv_step (db db2 : Db) (hstep : Step db db2) (hInv : Inv db) : Inv db2 := by
  obtain ⟨hown, hnew⟩ := hInv
  cases hstep with
  | stepSignup req env =>
    rcases signup_state db req env with hs | hs | ⟨hs, hfresh⟩
    · rw [hs]
      exact ⟨hown, hnew⟩
    · rw [hs]
      constructor
      · intro t ht
        rcases hown t ht with ⟨u, hu, hid⟩
        exact ⟨u, List.mem_append.2 (Or.inl hu), hid⟩
      · exact hnew
    · rw [hs]
      constructor
      · intro t ht
        rcases List.mem_append.1 ht with hmem | hmem
        · rcases hown t hmem with ⟨u, hu, hid⟩
          exact ⟨u, List.mem_append.2 (Or.inl hu), hid⟩
        · have hta : t = ⟨env.tokId, env.uuid, env.tokStr, "email_verification",
              env.now + 86400, none, env.now⟩ := by simpa using hmem
          rw [hta]
          exact ⟨⟨env.uuid, req.username, req.email, none, none,
            hash_password env.salt req.password, false, env.now, env.now⟩,
            List.mem_append.2 (Or.inr (by simp)), rfl⟩
      · apply NewestOnly_append_fresh db.tokens _ _ hnew
        intro t ht hteq
        rcases hown t ht with ⟨u, hu, hid⟩
        exact hfresh u hu (by rw [hid, hteq])
  | stepVerify s env =>
    rcases verify_state db s env with hs | ⟨t, hs⟩
    · rw [hs]
      exact ⟨hown, hnew⟩
    · rw [hs]
      constructor
      · exact TokensOwned_map db (markFun t.id env.now) (verFun t.user_id env.now)
          (fun x => (markFun_pres t.id env.now x).1) (verFun_id t.user_id env.now) hown
      · exact NewestOnly_map (markFun t.id env.now) (markFun_pres t.id env.now)
          (markFun_unused t.id env.now) db.tokens hnew
  | stepResend email env =>
    rcases resend_state db email env with hs | ⟨u, hfe, hs | hs⟩
    · rw [hs]
      exact ⟨hown, hnew⟩
    · rw [hs]
      exact (Inv_reissue db u (List.mem_of_find?_eq_some hfe) "email_verification" env.now
        ⟨env.tokId, u.id, env.tokStr, "email_verification", env.now + 86400, none, env.now⟩
        rfl rfl hown hnew).1
    · rw [hs]
      exact (Inv_reissue db u (List.mem_of_find?_eq_some hfe) "email_verification" env.now
        ⟨env.tokId, u.id, env.tokStr, "email_verification", env.now + 86400, none, env.now⟩
        rfl rfl hown hnew).2
  | stepForgot email env =>
    rcases forgot_state db email env with hs | ⟨u, hfe, hs | hs⟩
    · rw [hs]
      exact ⟨hown, hnew⟩
    · rw [hs]
      exact (Inv_reissue db u (List.mem_of_find?_eq_some hfe) "password_reset" env.now
        ⟨env.tokId, u.id, env.tokStr, "password_reset", env.now + 3600, none, env.now⟩
        rfl rfl hown hnew).1
    · rw [hs]
      exact (Inv_reissue db u (List.mem_of_find?_eq_some hfe) "password_reset" env.now
        ⟨env.tokId, u.id, env.tokStr, "password_reset", env.now + 3600, none, env.now⟩
        rfl rfl hown hnew).2
  | stepReset s pw salt env =>
    rcases reset_state db s pw salt env with hs | ⟨t, hs⟩
    · rw [hs]
      exact ⟨hown, hnew⟩
    · rw [hs]
      constructor
      · exact TokensOwned_map db (markFun t.id env.now)
          (pwFun t.user_id (hash_password salt pw) env.now)
          (fun x => (markFun_pres t.id env.now x).1)
          (pwFun_id t.user_id (hash_password salt pw) env.now) hown
      · exact NewestOnly_map (markFun t.id env.now) (markFun_pres t.id env.now)
          (markFun_unused t.id env.now) db.tokens hnew

theorem Inv_empty : Inv Db.empty := by
  constructor
  · intro t ht
    cases ht
  · intro t ht
    cases ht

theorem Inv_reach (db : Db) (h : Reach db) : Inv db := by
  induction h with
  | refl => exact Inv_empty
  | tail _ hbc ih => exact Inv_step _ _ hbc ih

/-- Claim C5: every token-issuing operation first marks used all live tokens
of the (user, type) pair it issues for (vacuously so for signup's fresh
user), so in every state reachable by sequential operations at most one token
per (user, type) pair is live at any instant, and that token is the newest
(last-inserted) one of its pair. -/
theorem C5_single_live_token (db : Db) (hdb : Reach db) (now : Int) (t1 t2 : AuthToken)
    (h1 : t1 ∈ db.tokens) (h2 : t2 ∈ db.tokens)
    (hl1 : is_live t1 now) (hl2 : is_live t2 now)
    (huid : t1.user_id = t2.user_id) (hty : t1.token_type = t2.token_type) :
    t1 = t2 ∧ (pairTokens db.tokens t1.user_id t1.token_type).getLast? = some t1 := by
  have hInv := Inv_reach db hdb
  have g1 := hInv.2 t1 h1 hl1.1
  have g2 := hInv.2 t2 h2 hl2.1
  rw [← huid, ← hty] at g2
  rw [g1] at g2
  exact ⟨Option.some_inj.1 g2, g1⟩

/-- Concrete signup request reaching a one-token state. -/
def sigReq : RegisterUser := ⟨"alice", "a@x.com", "password123"⟩

/-- Environment of the concrete signup. -/
def sigEnv : SignupEnv := ⟨1, 2, 3, "TOK", 0, true, true⟩

/-- The state reached from the empty database by that signup. -/
def dbSig : Db := (signup Db.empty sigReq sigEnv).1

/-- The verification token that signup persisted. -/
def sigTok : AuthToken := ⟨3, 1, "TOK", "email_verification", 0 + 86400, none, 0⟩

/-- Witness for C5: in the concrete reachable state the live token is the
newest of its pair. -/
theorem C5_witness :
    sigTok = sigTok
    ∧ (pairTokens dbSig.tokens sigTok.user_id sigTok.token_type).getLast? = some sigTok := by
  have hreach : Reach dbSig :=
    Relation.ReflTransGen.single (Step.stepSignup Db.empty sigReq sigEnv)
  exact C5_single_live_token dbSig hreach 0 sigTok sigTok (by decide) (by decide)
    (by decide) (by decide) rfl rfl

end Blogverse
